import Mathlib

/-!
Verification of the job-page data-extraction core of ResumeAI Pro
(`src/content.js`, class `JobDescriptionExtractor`).

The JavaScript code is shallowly embedded: strings are Lean `String`
(worked on as `List Char`), a DOM page is a record carrying the hostname,
URL, document title, body text and a `querySelector` oracle
`query : String → Option String` returning the `textContent` of the first
element matched by a selector string (or `none` when no element matches).
`null`-able JS strings become `Option String`; JS string truthiness
(`!s` / `s &&`) is `jsTruthy`.  The outbound `notifyBackground` call is
embedded as the list of notifications an extraction pass emits.
-/

set_option maxRecDepth 100000

namespace ResumeAI

/-- JS `\s` whitespace class restricted to the ASCII range (space, tab,
newline, carriage return, vertical tab, form feed); this is what
`String.prototype.trim`, the regex `\s` and `.replace(/\s+/g, ' ')` use
on the ASCII inputs considered here. -/
def isSpaceJS (c : Char) : Bool :=
  decide (c = ' ' ∨ c = '\t' ∨ c = '\n' ∨ c = '\r' ∨ c = Char.ofNat 11 ∨ c = Char.ofNat 12)

/-- JS `toLowerCase()` on the ASCII strings considered here. -/
def jsToLower (s : String) : String := String.mk (s.data.map Char.toLower)

/-- `needle.isPrefixOf hay || …` scan: JS `hay.includes(needle)` on char lists. -/
def strContainsL (needle : List Char) : List Char → Bool
  | [] => needle.isEmpty
  | c :: rest => needle.isPrefixOf (c :: rest) || strContainsL needle rest

/-- JS `s.includes(sub)` (case-sensitive substring containment). -/
def strContains (s sub : String) : Bool := strContainsL sub.data s.data

/-- JS `String.prototype.trim()` on char lists: drop whitespace from both ends. -/
def trimL (l : List Char) : List Char :=
  ((l.dropWhile isSpaceJS).reverse.dropWhile isSpaceJS).reverse

/-- JS `s.trim()`. -/
def trimStr (s : String) : String := String.mk (trimL s.data)

/-- JS truthiness of a nullable string: `null`/`undefined` and `""` are falsy. -/
def jsTruthy : Option String → Bool
  | none => false
  | some s => !(s == "")

/-! ## `cleanText` (content.js lines 319-324)

```js
cleanText(text) {
    return text
        .replace(/\s+/g, ' ')
        .replace(/\n\s*\n/g, '\n')
        .trim();
}
```
-/

/-- First pass of `cleanText`: `.replace(/\s+/g, ' ')` — every maximal run of
whitespace is replaced by a single space. -/
def collapseWS : List Char → List Char
  | [] => []
  | [c] => if isSpaceJS c then [' '] else [c]
  | c :: d :: rest =>
    if isSpaceJS c then
      if isSpaceJS d then collapseWS (d :: rest)
      else ' ' :: collapseWS (d :: rest)
    else c :: collapseWS (d :: rest)

/-- Helper for the second pass: given the characters after an initial `'\n'`,
find the backtracking match of `\s*\n` — the greedy whitespace run truncated at
its last newline — returning the remainder after that newline, or `none` if the
maximal whitespace run after the `'\n'` contains no newline. -/
def lastNlSplit : List Char → Option (List Char)
  | [] => none
  | c :: rest =>
    if isSpaceJS c then
      match lastNlSplit rest with
      | some r => some r
      | none => if c = '\n' then some rest else none
    else none

/-- Second pass of `cleanText`: `.replace(/\n\s*\n/g, '\n')`, as a left-to-right
global scan.  The fuel argument bounds the number of scan steps; each step
consumes at least one character, so fuel = input length is always enough. -/
def pass2F : Nat → List Char → List Char
  | 0, l => l
  | _, [] => []
  | fuel + 1, c :: rest =>
    if c = '\n' then
      match lastNlSplit rest with
      | some r => '\n' :: pass2F fuel r
      | none => c :: pass2F fuel rest
    else c :: pass2F fuel rest

/-- `.replace(/\n\s*\n/g, '\n')`. -/
def pass2 (l : List Char) : List Char := pass2F l.length l

/-- `cleanText` (content.js lines 319-324): collapse whitespace runs to single
spaces, collapse blank-line pairs to single newlines, then trim. -/
def cleanText (s : String) : String := String.mk (trimL (pass2 (collapseWS s.data)))

/-! ## Page model and JobPosting (content.js lines 85-101) -/

/-- The read-only DOM facts an extraction pass consults: `window.location`
data, `document.title`, `document.body.textContent`, and the
`document.querySelector` oracle mapping a selector string to the
`textContent` of the first matching element (`none` = no match). -/
structure Page where
  hostname : String
  url : String
  docTitle : String
  bodyText : String
  query : String → Option String

/-- The `jobData` object assembled by `extractJobData` (content.js lines 86-95). -/
structure JobPosting where
  title : Option String
  company : Option String
  location : Option String
  description : Option String
  requirements : List String
  skills : List String
  url : String
  timestamp : String

/-! ## PageClassifier (content.js lines 34-79) -/

/-- The fixed job-board hostname allowlist (content.js lines 39-49). -/
def jobBoards : List String :=
  ["linkedin.com", "indeed.com", "glassdoor.com", "monster.com",
   "ziprecruiter.com", "careerbuilder.com", "dice.com", "angel.co",
   "wellfound.com"]

/-- The fixed keyword set of the fallback heuristic (content.js lines 65-68). -/
def jobKeywords : List String :=
  ["job", "career", "position", "opening", "opportunity",
   "employment", "hiring", "recruitment", "vacancy"]

/-- `detectJobKeywords` (content.js lines 64-79): some keyword occurs in the
lower-cased URL, document title, or body text. -/
def detectJobKeywords (p : Page) : Bool :=
  jobKeywords.any fun keyword =>
    strContains (jsToLower p.url) keyword ||
    strContains (jsToLower p.docTitle) keyword ||
    strContains (jsToLower p.bodyText) keyword

/-- `detectJobPage`'s classification expression (content.js lines 51-52):
hostname allowlist hit (case-sensitive `includes`, hostname not lower-cased)
or keyword fallback. -/
def detectJobPage (p : Page) : Bool :=
  (jobBoards.any fun board => strContains p.hostname board) || detectJobKeywords p

/-! ## FieldExtractor selector tables (content.js lines 107-258) -/

def linkedinTitleSel : String :=
  "h1.job-title, .job-details-jobs-unified-top-card__job-title, h1[data-test-id=\"job-title\"]"

def indeedTitleSel : String :=
  "h1[data-testid=\"job-title\"], .jobsearch-JobInfoHeader-title"

def glassdoorTitleSel : String := ".jobTitle, .JobDetails_jobTitle__"

def genericTitleSelectors : List String :=
  ["h1.job-title", "h1[class*=\"job-title\"]", "h1[class*=\"title\"]",
   ".job-header h1", ".job-title", "h1"]

def linkedinCompanySel : String :=
  ".job-details-jobs-unified-top-card__company-name, .job-details-jobs-unified-top-card__primary-description-without-tagline a"

def indeedCompanySel : String :=
  "[data-testid=\"company-name\"], .jobsearch-CompanyInfoContainer"

def genericCompanySelectors : List String :=
  [".company-name", ".job-company", "[class*=\"company\"]", ".employer", ".organization"]

def linkedinLocationSel : String :=
  ".job-details-jobs-unified-top-card__bullet, .job-details-jobs-unified-top-card__primary-description-without-tagline span"

def indeedLocationSel : String :=
  "[data-testid=\"job-location\"], .jobsearch-JobInfoHeader-subtitle"

def genericLocationSelectors : List String :=
  [".job-location", ".location", "[class*=\"location\"]", ".job-address"]

def linkedinDescSel : String :=
  ".jobs-description-content__text, .jobs-box__html-content, .jobs-description__content"

def indeedDescSel : String := "#jobDescriptionText, .jobsearch-jobDescriptionText"

def glassdoorDescSel : String := ".jobDescriptionContent, .JobDetails_jobDescription__"

def genericDescSelectors : List String :=
  [".job-description", ".job-content", ".description", "[class*=\"description\"]",
   ".job-details", ".job-summary"]

/-- The fixed block-list of `isValidJobTitle` (content.js lines 335-338). -/
def invalidTitles : List String :=
  ["home", "about", "contact", "login", "sign up", "search",
   "jobs", "careers", "company", "team", "news", "blog"]

/-- `isValidJobTitle` (content.js lines 332-342): reject absent titles
(`!title`), titles shorter than 3 characters, and titles whose lower-cased
text contains a block-list word. -/
def isValidJobTitle : Option String → Bool
  | none => false
  | some t =>
    if t = "" then false
    else if t.length < 3 then false
    else !(invalidTitles.any fun invalid => strContains (jsToLower t) invalid)

/-- The generic-selector loop of `extractJobTitle` (content.js lines 136-141):
first element whose raw `textContent` passes `isValidJobTitle`, returned trimmed. -/
def genericTitleLoop (p : Page) : List String → Option String
  | [] => none
  | sel :: rest =>
    match p.query sel with
    | some t => if isValidJobTitle (some t) then some (trimStr t) else genericTitleLoop p rest
    | none => genericTitleLoop p rest

/-- The generic-selector loop of `extractCompany`/`extractLocation`
(content.js lines 172-177 and 207-212): first element with nonempty trimmed
text, returned trimmed. -/
def genericNonemptyLoop (p : Page) : List String → Option String
  | [] => none
  | sel :: rest =>
    match p.query sel with
    | some t => if 0 < (trimStr t).length then some (trimStr t) else genericNonemptyLoop p rest
    | none => genericNonemptyLoop p rest

/-- The generic-selector loop of `extractJobDescription` (content.js lines
250-255): first element whose trimmed text is longer than 100 characters,
returned through `cleanText`. -/
def genericDescLoop (p : Page) : List String → Option String
  | [] => none
  | sel :: rest =>
    match p.query sel with
    | some t => if 100 < (trimStr t).length then some (cleanText t) else genericDescLoop p rest
    | none => genericDescLoop p rest

/-- `extractJobTitle` (content.js lines 107-144).  Each site-specific branch
returns `title ? title.textContent.trim() : null` directly. -/
def extractJobTitle (p : Page) : Option String :=
  if strContains p.hostname "linkedin.com" then Option.map trimStr (p.query linkedinTitleSel)
  else if strContains p.hostname "indeed.com" then Option.map trimStr (p.query indeedTitleSel)
  else if strContains p.hostname "glassdoor.com" then Option.map trimStr (p.query glassdoorTitleSel)
  else genericTitleLoop p genericTitleSelectors

/-- `extractCompany` (content.js lines 150-180). -/
def extractCompany (p : Page) : Option String :=
  if strContains p.hostname "linkedin.com" then Option.map trimStr (p.query linkedinCompanySel)
  else if strContains p.hostname "indeed.com" then Option.map trimStr (p.query indeedCompanySel)
  else genericNonemptyLoop p genericCompanySelectors

/-- `extractLocation` (content.js lines 186-215). -/
def extractLocation (p : Page) : Option String :=
  if strContains p.hostname "linkedin.com" then Option.map trimStr (p.query linkedinLocationSel)
  else if strContains p.hostname "indeed.com" then Option.map trimStr (p.query indeedLocationSel)
  else genericNonemptyLoop p genericLocationSelectors

/-- `extractJobDescription` (content.js lines 221-258).  Site-specific branches
return `description ? this.cleanText(description.textContent) : null`. -/
def extractJobDescription (p : Page) : Option String :=
  if strContains p.hostname "linkedin.com" then Option.map cleanText (p.query linkedinDescSel)
  else if strContains p.hostname "indeed.com" then Option.map cleanText (p.query indeedDescSel)
  else if strContains p.hostname "glassdoor.com" then Option.map cleanText (p.query glassdoorDescSel)
  else genericDescLoop p genericDescSelectors

/-! ## RequirementsParser (content.js lines 264-284)

```js
const requirementPatterns = [
    /requirements?[:\s]+(.*?)(?=\n\n|\n[A-Z]|$)/gi,
    /qualifications?[:\s]+(.*?)(?=\n\n|\n[A-Z]|$)/gi,
    /must have[:\s]+(.*?)(?=\n\n|\n[A-Z]|$)/gi,
    /required[:\s]+(.*?)(?=\n\n|\n[A-Z]|$)/gi
];
```

The regex engine below implements exactly the JS backtracking semantics of
these four patterns: a heading alternation (`s?` tried greedily, so the
plural form is tried before the singular), a greedy `[:\s]+` separator with
backtracking, a lazy `(.*?)` body (`.` never matches a newline), and the
lookahead `(?=\n\n|\n[A-Z]|$)`.  `String.match` with the `g` flag is the
left-to-right non-overlapping global scan `globalScan`. -/

/-- The regex class `[:\s]`. -/
def wsOrColon (c : Char) : Bool := c = ':' || isSpaceJS c

/-- Case-insensitive literal match (the `i` flag): if `pat` matches a prefix of
the text, return the remaining text. -/
def ciMatch : List Char → List Char → Option (List Char)
  | [], l => some l
  | _ :: _, [] => none
  | p :: ps, c :: cs => if p.toLower = c.toLower then ciMatch ps cs else none

/-- The lookahead `(?=\n\n|\n[A-Z]|$)` tested at the start of `l`. -/
def lookaheadOk : List Char → Bool
  | [] => true
  | c :: rest =>
    if c = '\n' then
      match rest with
      | [] => false
      | d :: _ => d = '\n' || ('A' ≤ d && d ≤ 'Z')
    else false

/-- Lazy `(.*?)(?=\n\n|\n[A-Z]|$)`: the shortest newline-free prefix after
which the lookahead holds, returned with the remaining text. -/
def lazyContent : List Char → Option (List Char × List Char)
  | [] => some ([], [])
  | c :: rest =>
    if lookaheadOk (c :: rest) then some ([], c :: rest)
    else if c = '\n' then none
    else (lazyContent rest).map fun p => (c :: p.1, p.2)

/-- Greedy `[:\s]+` followed by the lazy body: try separator length `k`,
backtracking downwards to 1.  Called with `k` = length of the maximal
`[:\s]` run of `l`, so every tried separator consists of `[:\s]` characters. -/
def trySep (l : List Char) : Nat → Option (List Char × List Char)
  | 0 => none
  | k + 1 =>
    match lazyContent (l.drop (k + 1)) with
    | some (body, rest) => some (l.take (k + 1) ++ body, rest)
    | none => trySep l k

/-- `[:\s]+(.*?)(?=\n\n|\n[A-Z]|$)` at the start of `l`: the consumed text and
the remainder. -/
def sepContent (l : List Char) : Option (List Char × List Char) :=
  trySep l (l.takeWhile wsOrColon).length

/-- Try a pattern (heading alternatives in JS backtracking order) at the start
of `l`; on success return the full matched text and the remainder. -/
def matchPatternAt (cands : List (List Char)) (l : List Char) : Option (List Char × List Char) :=
  match cands with
  | [] => none
  | pat :: more =>
    match ciMatch pat l with
    | some rest1 =>
      match sepContent rest1 with
      | some (sc, r) => some (l.take pat.length ++ sc, r)
      | none => matchPatternAt more l
    | none => matchPatternAt more l

/-- Global scan (`String.match` with `/g`): slide over the text, collect each
match, resume after it.  The fuel bounds the scan steps; every step consumes
at least one character, so fuel = text length is always enough. -/
def globalScanF (cands : List (List Char)) : Nat → List Char → List (List Char)
  | 0, _ => []
  | _, [] => []
  | fuel + 1, c :: rest =>
    match matchPatternAt cands (c :: rest) with
    | some (m, r) => m :: globalScanF cands fuel r
    | none => globalScanF cands fuel rest

/-- All matches of one requirement pattern in `s`. -/
def globalScan (cands : List (List Char)) (s : List Char) : List (List Char) :=
  globalScanF cands s.length s

/-- Heading alternatives of `/requirements?[:\s]+…/`: greedy `s?` tries the
plural first. -/
def reqHeads1 : List (List Char) := ["requirements".data, "requirement".data]

/-- Heading alternatives of `/qualifications?[:\s]+…/`. -/
def reqHeads2 : List (List Char) := ["qualifications".data, "qualification".data]

/-- Heading alternative of `/must have[:\s]+…/`. -/
def reqHeads3 : List (List Char) := ["must have".data]

/-- Heading alternative of `/required[:\s]+…/`. -/
def reqHeads4 : List (List Char) := ["required".data]

/-- Alternatives of the strip regex
`/^(requirements?|qualifications?|must have|required)[:\s]+/i` in JS
backtracking order. -/
def stripHeads : List (List Char) :=
  ["requirements".data, "requirement".data, "qualifications".data,
   "qualification".data, "must have".data, "required".data]

/-- `match.replace(/^(requirements?|qualifications?|must have|required)[:\s]+/i, '')`:
strip the first heading alternative that matches at the start and is followed
by at least one `[:\s]` character, together with the whole greedy `[:\s]+` run;
otherwise leave the text unchanged. -/
def stripHeading : List (List Char) → List Char → List Char
  | [], l => l
  | pat :: more, l =>
    match ciMatch pat l with
    | some rest =>
      match rest with
      | [] => stripHeading more l
      | r :: rs => if wsOrColon r then rs.dropWhile wsOrColon else stripHeading more l
    | none => stripHeading more l

/-- One `for (const pattern of requirementPatterns)` iteration: all global
matches of the pattern, each with its heading stripped and trimmed. -/
def patternScan (cands : List (List Char)) (s : String) : List String :=
  (globalScan cands s.data).map fun m => String.mk (trimL (stripHeading stripHeads m))

/-- `extractRequirements` (content.js lines 264-284), as a function of the
extracted description (`this.extractJobDescription()`): `null`/empty
description short-circuits to `[]`; otherwise the matches of the four
patterns are concatenated (no deduplication), heading-stripped and trimmed. -/
def extractRequirements (description : Option String) : List String :=
  match description with
  | none => []
  | some s =>
    if s = "" then []
    else patternScan reqHeads1 s ++ patternScan reqHeads2 s ++
         patternScan reqHeads3 s ++ patternScan reqHeads4 s

/-! ## SkillsMatcher (content.js lines 290-312) -/

/-- The fixed skills vocabulary (content.js lines 294-300), in source order. -/
def commonSkills : List String :=
  ["JavaScript", "Python", "Java", "C++", "C#", "React", "Angular", "Vue",
   "Node.js", "Express", "Django", "Flask", "Spring", "SQL", "MongoDB",
   "PostgreSQL", "MySQL", "AWS", "Azure", "Docker", "Kubernetes", "Git",
   "Agile", "Scrum", "Machine Learning", "AI", "Data Science", "Analytics",
   "Project Management", "Leadership", "Communication", "Problem Solving"]

/-- `extractSkills` (content.js lines 290-312), as a function of the extracted
description: `null`/empty description short-circuits to `[]`; otherwise the
`for … push` loop keeps, in vocabulary order, the skills whose lower-cased
text occurs in the lower-cased description. -/
def extractSkills (description : Option String) : List String :=
  match description with
  | none => []
  | some s =>
    if s = "" then []
    else commonSkills.filter fun skill => strContains (jsToLower s) (jsToLower skill)

/-! ## extractJobData and the outbound notification (content.js lines 85-101, 392-397) -/

/-- One extraction pass (`extractJobData`, content.js lines 85-101): assemble
the `jobData` object; when both `title` and `description` are truthy, store it
and emit it through `notifyBackground`, otherwise keep the previously stored
`jobData` and emit nothing.  Returns (stored `jobData` after the pass, list of
emitted notifications). -/
def extractJobData (p : Page) (prev : Option JobPosting) (ts : String) :
    Option JobPosting × List JobPosting :=
  let jd : JobPosting :=
    { title := extractJobTitle p
      company := extractCompany p
      location := extractLocation p
      description := extractJobDescription p
      requirements := extractRequirements (extractJobDescription p)
      skills := extractSkills (extractJobDescription p)
      url := p.url
      timestamp := ts }
  if jsTruthy jd.title && jsTruthy jd.description then (some jd, [jd]) else (prev, [])

/-! ## ChangeWatcher (content.js lines 348-370)

The `MutationObserver` callback receives a batch of mutation records; if any
record is a `childList` mutation with added nodes, it schedules exactly one
`setTimeout(…, 1000)`.  Timers are never cancelled.  The model below replays a
sequence of callback invocations, each tagged with its arrival time, and
collects the firing times of all scheduled rescan timers. -/

/-- A DOM mutation record, reduced to the fields the callback reads. -/
structure MutationRecord where
  type : String
  addedNodesCount : Nat

/-- `mutation.type === 'childList' && mutation.addedNodes.length > 0`. -/
def mutationQualifies (m : MutationRecord) : Bool :=
  m.type == "childList" && decide (0 < m.addedNodesCount)

/-- Timers scheduled by one observer-callback invocation at time `now`:
one `setTimeout(…, 1000)` when some record in the batch qualifies, none
otherwise (content.js lines 350-363). -/
def callbackTimers (now : Nat) (batch : List MutationRecord) : List Nat :=
  if batch.any mutationQualifies then [now + 1000] else []

/-- Firing times of every rescan timer scheduled over a sequence of
observer-callback invocations `(arrival time, batch)`; no timer is ever
cancelled, so the lists accumulate. -/
def scheduledRescans : List (Nat × List MutationRecord) → List Nat
  | [] => []
  | b :: rest => callbackTimers b.1 b.2 ++ scheduledRescans rest

/-! ## Lemmas: shape of `cleanText` output -/

/-- Every whitespace character of `l` is a plain space. -/
def WsBlank (l : List Char) : Prop := ∀ c ∈ l, isSpaceJS c = true → c = ' '

/-- No two adjacent characters of `l` are both whitespace. -/
def NoAdjWS (l : List Char) : Prop :=
  l.Chain' fun a b => ¬(isSpaceJS a = true ∧ isSpaceJS b = true)

theorem collapseWS_head (d : Char) (rest : List Char) (h : isSpaceJS d = false) :
    ∃ t, collapseWS (d :: rest) = d :: t := by
  cases rest with
  | nil => exact ⟨[], by simp [collapseWS, h]⟩
  | cons e rs => exact ⟨collapseWS (e :: rs), by simp [collapseWS, h]⟩

theorem collapseWS_props : ∀ l : List Char, WsBlank (collapseWS l) ∧ NoAdjWS (collapseWS l)
  | [] => by constructor <;> simp [collapseWS, WsBlank, NoAdjWS]
  | [c] => by
    constructor
    · intro x hx hws
      by_cases h : isSpaceJS c = true <;> simp [collapseWS, h] at hx <;> subst hx
      · rfl
      · simp [h] at hws
    · by_cases h : isSpaceJS c = true <;> simp [collapseWS, h, NoAdjWS]
  | c :: d :: rest => by
    have IH := collapseWS_props (d :: rest)
    by_cases hc : isSpaceJS c = true
    · by_cases hd : isSpaceJS d = true
      · simpa [collapseWS, hc, hd] using IH
      · have hd' : isSpaceJS d = false := by simpa using hd
        have heq : collapseWS (c :: d :: rest) = ' ' :: collapseWS (d :: rest) := by
          simp [collapseWS, hc, hd']
        obtain ⟨t, ht⟩ := collapseWS_head d rest hd'
        constructor
        · intro x hx hws
          rw [heq] at hx
          rcases List.mem_cons.mp hx with h1 | h2
          · exact h1
          · exact IH.1 x h2 hws
        · rw [NoAdjWS, heq, List.chain'_cons']
          refine ⟨?_, IH.2⟩
          intro y hy
          rw [ht] at hy
          simp only [List.head?_cons, Option.mem_def, Option.some.injEq] at hy
          subst hy
          exact fun hcon => by simp [hd'] at hcon
    · have hc' : isSpaceJS c = false := by simpa using hc
      have heq : collapseWS (c :: d :: rest) = c :: collapseWS (d :: rest) := by
        simp [collapseWS, hc']
      constructor
      · intro x hx hws
        rw [heq] at hx
        rcases List.mem_cons.mp hx with h1 | h2
        · subst h1; simp [hc'] at hws
        · exact IH.1 x h2 hws
      · rw [NoAdjWS, heq, List.chain'_cons']
        refine ⟨?_, IH.2⟩
        intro y _
        exact fun hcon => by simp [hc'] at hcon

theorem collapseWS_id : ∀ l : List Char, WsBlank l → NoAdjWS l → collapseWS l = l
  | [] => fun _ _ => rfl
  | [c] => by
    intro hb _
    by_cases h : isSpaceJS c = true
    · have hceq : c = ' ' := hb c (by simp) h
      simp [collapseWS, h, hceq]
    · have h' : isSpaceJS c = false := by simpa using h
      simp [collapseWS, h']
  | c :: d :: rest => by
    intro hb hn
    have hbt : WsBlank (d :: rest) := fun x hx => hb x (List.mem_cons_of_mem _ hx)
    have hnt : NoAdjWS (d :: rest) := (List.chain'_cons'.mp hn).2
    have IH := collapseWS_id (d :: rest) hbt hnt
    by_cases hc : isSpaceJS c = true
    · have hceq : c = ' ' := hb c (by simp) hc
      have hrel := (List.chain'_cons'.mp hn).1 d (by simp)
      have hd : isSpaceJS d = false := by
        by_contra hcon
        exact hrel ⟨hc, by simpa using hcon⟩
      simp [collapseWS, hc, hd, IH, hceq]
    · have hc' : isSpaceJS c = false := by simpa using hc
      simp [collapseWS, hc', IH]

theorem no_nl_of_wsBlank {l : List Char} (h : WsBlank l) : '\n' ∉ l := by
  intro hm
  have := h '\n' hm (by decide)
  exact absurd this (by decide)

theorem pass2F_eq_of_no_nl : ∀ (fuel : Nat) (l : List Char), '\n' ∉ l → pass2F fuel l = l
  | 0, l => fun _ => by cases l <;> rfl
  | _ + 1, [] => fun _ => rfl
  | fuel + 1, c :: rest => fun h => by
    have hc : ¬(c = '\n') := fun e => h (by simp [e])
    have hrest : '\n' ∉ rest := fun e => h (List.mem_cons_of_mem _ e)
    simp [pass2F, hc, pass2F_eq_of_no_nl fuel rest hrest]

theorem pass2_eq_of_no_nl {l : List Char} (h : '\n' ∉ l) : pass2 l = l :=
  pass2F_eq_of_no_nl l.length l h

theorem dropWhile_dropWhile (p : Char → Bool) (l : List Char) :
    (l.dropWhile p).dropWhile p = l.dropWhile p := by
  induction l with
  | nil => rfl
  | cons c rest ih =>
    by_cases h : p c
    · simp [List.dropWhile_cons, h, ih]
    · simp [List.dropWhile_cons, h]

theorem dropWhile_eq_self_of_head (p : Char → Bool) (l : List Char)
    (h : ∀ c ∈ l.head?, p c = false) : l.dropWhile p = l := by
  cases l with
  | nil => rfl
  | cons c rest =>
    have := h c (by simp)
    simp [List.dropWhile_cons, this]

theorem mem_of_mem_trimL {c : Char} {l : List Char} (h : c ∈ trimL l) : c ∈ l := by
  unfold trimL at h
  rw [List.mem_reverse] at h
  have h1 := (List.dropWhile_sublist (l := (l.dropWhile isSpaceJS).reverse) isSpaceJS).mem h
  rw [List.mem_reverse] at h1
  exact (List.dropWhile_sublist (l := l) isSpaceJS).mem h1

theorem wsBlank_trimL {l : List Char} (h : WsBlank l) : WsBlank (trimL l) :=
  fun c hc hws => h c (mem_of_mem_trimL hc) hws

theorem noAdjWS_trimL {l : List Char} (h : NoAdjWS l) : NoAdjWS (trimL l) := by
  unfold NoAdjWS trimL at *
  have h1 := h.suffix (List.dropWhile_suffix (l := l) isSpaceJS)
  have h2 : ((l.dropWhile isSpaceJS).reverse).Chain'
      fun a b => ¬(isSpaceJS a = true ∧ isSpaceJS b = true) := by
    rw [List.chain'_reverse]
    exact h1.imp fun a b hab => fun hcon => hab ⟨hcon.2, hcon.1⟩
  have h3 := h2.suffix
    (List.dropWhile_suffix (l := (l.dropWhile isSpaceJS).reverse) isSpaceJS)
  rw [List.chain'_reverse]
  exact h3.imp fun a b hab => fun hcon => hab ⟨hcon.2, hcon.1⟩

theorem trimL_trimL (l : List Char) : trimL (trimL l) = trimL l := by
  have hstep : ((((l.dropWhile isSpaceJS).reverse.dropWhile isSpaceJS).reverse).dropWhile
      isSpaceJS) = ((l.dropWhile isSpaceJS).reverse.dropWhile isSpaceJS).reverse := by
    apply dropWhile_eq_self_of_head
    intro c hc
    rw [List.head?_reverse] at hc
    by_cases hBnil : (l.dropWhile isSpaceJS).reverse.dropWhile isSpaceJS = []
    · rw [hBnil] at hc
      simp at hc
    · obtain ⟨t, ht⟩ :=
        List.dropWhile_suffix (l := (l.dropWhile isSpaceJS).reverse) isSpaceJS
      have hlast : ((l.dropWhile isSpaceJS).reverse.dropWhile isSpaceJS).getLast? =
          ((l.dropWhile isSpaceJS).reverse).getLast? := by
        conv_rhs => rw [← ht]
        rw [List.getLast?_append_of_ne_nil _ hBnil]
      rw [hlast, List.getLast?_reverse] at hc
      have hmatch := List.head?_dropWhile_not isSpaceJS l
      rw [Option.mem_def] at hc
      rw [hc] at hmatch
      exact hmatch
  show trimL (((l.dropWhile isSpaceJS).reverse.dropWhile isSpaceJS).reverse) = _
  unfold trimL
  rw [hstep, List.reverse_reverse, dropWhile_dropWhile]

theorem cleanText_data (s : String) :
    (cleanText s).data = trimL (pass2 (collapseWS s.data)) := rfl

theorem cleanText_idem_aux (s : String) :
    trimL (pass2 (collapseWS (cleanText s).data)) = (cleanText s).data := by
  rw [cleanText_data]
  have hC := collapseWS_props s.data
  have hp2 : pass2 (collapseWS s.data) = collapseWS s.data :=
    pass2_eq_of_no_nl (no_nl_of_wsBlank hC.1)
  rw [hp2]
  have hTb : WsBlank (trimL (collapseWS s.data)) := wsBlank_trimL hC.1
  have hTn : NoAdjWS (trimL (collapseWS s.data)) := noAdjWS_trimL hC.2
  rw [collapseWS_id _ hTb hTn, pass2_eq_of_no_nl (no_nl_of_wsBlank hTb), trimL_trimL]

/-! ## Helper lemmas for the claim theorems -/

theorem genericDescLoop_sound (p : Page) :
    ∀ (ls : List String) (d : String), genericDescLoop p ls = some d →
      ∃ sel ∈ ls, ∃ raw, p.query sel = some raw ∧ 100 < (trimStr raw).length ∧
        d = cleanText raw := by
  intro ls
  induction ls with
  | nil => intro d h; simp [genericDescLoop] at h
  | cons sel rest ih =>
    intro d h
    rcases hq : p.query sel with _ | t
    · simp only [genericDescLoop, hq] at h
      obtain ⟨sel', hs, raw, hr⟩ := ih d h
      exact ⟨sel', List.mem_cons_of_mem _ hs, raw, hr⟩
    · simp only [genericDescLoop, hq] at h
      by_cases hlen : 100 < (trimStr t).length
      · rw [if_pos hlen] at h
        exact ⟨sel, by simp, t, hq, hlen, (Option.some.inj h).symm⟩
      · rw [if_neg hlen] at h
        obtain ⟨sel', hs, raw, hr⟩ := ih d h
        exact ⟨sel', List.mem_cons_of_mem _ hs, raw, hr⟩

theorem commonSkills_nodup : commonSkills.Nodup := by decide

/-! ## Concrete fixtures -/

/-- A LinkedIn page whose site-specific title selector matches but whose
description selectors match nothing. -/
def pageLn : Page :=
  { hostname := "www.linkedin.com"
    url := "https://www.linkedin.com/jobs/view/1"
    docTitle := "Job"
    bodyText := ""
    query := fun sel => if sel = linkedinTitleSel then some "Software Engineer" else none }

/-- A LinkedIn-hostname page where no site-specific selector matches anything
but the generic selector `h1` resolves to a plausible job title. -/
def pageC2 : Page :=
  { hostname := "jobs.linkedin.com"
    url := "https://jobs.linkedin.com/1"
    docTitle := "Job"
    bodyText := ""
    query := fun sel => if sel = "h1" then some "Senior Software Engineer" else none }

/-- An Indeed-hostname page on which no selector resolves to anything. -/
def pageIn : Page :=
  { hostname := "www.indeed.com"
    url := "https://www.indeed.com/viewjob?jk=1"
    docTitle := "Job"
    bodyText := ""
    query := fun _ => none }

/-- A Glassdoor-hostname page on which no selector resolves to anything. -/
def pageGd : Page :=
  { hostname := "www.glassdoor.com"
    url := "https://www.glassdoor.com/job-listing/1"
    docTitle := "Job"
    bodyText := ""
    query := fun _ => none }

/-- An allowlisted hostname with no job keyword anywhere else. -/
def pageC3 : Page :=
  { hostname := "www.linkedin.com"
    url := "https://x.example/a"
    docTitle := "x"
    bodyText := "x"
    query := fun _ => none }

/-- Raw description text of 152 characters whose trimmed length exceeds 100
but which whitespace-collapses to the 3-character string "a b". -/
def rawDescC4 : String := "a" ++ String.mk (List.replicate 150 ' ') ++ "b"

/-- A non-job-board page whose first generic description selector resolves to
`rawDescC4`. -/
def pageC4 : Page :=
  { hostname := "example.com"
    url := "https://example.com/1"
    docTitle := "Opening"
    bodyText := ""
    query := fun sel => if sel = ".job-description" then some rawDescC4 else none }

/-- The canonical two-heading description of the requirements-parser claim. -/
def reqDesc : String := "Requirements: 5 years experience Qualifications: BS in CS"

/-- The canonical description of the skills-matcher claim. -/
def skillsDesc : String := "Experience with Python and AWS required"

/-- Two observer-callback invocations, each with one qualifying `childList`
mutation, arriving 100 ms apart — well inside one 1000 ms window. -/
def burst : List (Nat × List MutationRecord) :=
  [(0, [⟨"childList", 1⟩]), (100, [⟨"childList", 1⟩])]

/-! ## Claim theorems -/

/-- Claim C1: a JobPosting is emitted to the outbound notification interface
(`notifyBackground`) only when both its title and its description are non-null
and non-empty; and on every extraction pass where the title is present but the
description is null or empty, no notification is sent and the stored `jobData`
is not updated. -/
theorem C1_valid_emission :
    (∀ (p : Page) (prev : Option JobPosting) (ts : String) (jd : JobPosting),
        jd ∈ (extractJobData p prev ts).2 →
        jsTruthy jd.title = true ∧ jsTruthy jd.description = true) ∧
    (∀ (p : Page) (prev : Option JobPosting) (ts : String),
        jsTruthy (extractJobTitle p) = true →
        jsTruthy (extractJobDescription p) = false →
        (extractJobData p prev ts).2 = [] ∧ (extractJobData p prev ts).1 = prev) := by
  constructor
  · intro p prev ts jd hmem
    simp only [extractJobData] at hmem
    by_cases hcond :
        (jsTruthy (extractJobTitle p) && jsTruthy (extractJobDescription p)) = true
    · rw [if_pos hcond] at hmem
      rw [List.mem_singleton] at hmem
      subst hmem
      exact Bool.and_eq_true_iff.mp hcond
    · rw [if_neg hcond] at hmem
      simp at hmem
  · intro p prev ts h1 h2
    simp only [extractJobData, h2, Bool.and_false]
    simp

/-- Witness for C1 at `pageLn`: title present, description absent, nothing
emitted, stored jobData unchanged. -/
theorem C1_valid_emission_witness :
    (extractJobData pageLn none "2024-01-01T00:00:00Z").2 = [] ∧
    (extractJobData pageLn none "2024-01-01T00:00:00Z").1 = none :=
  C1_valid_emission.2 pageLn none "2024-01-01T00:00:00Z" (by decide) (by decide)

/-- Claim C2 counterexample: on the LinkedIn-hostname page `pageC2` the
site-specific title selectors resolve to nothing while the generic selector
`h1` resolves to a plausible title, yet `extractJobTitle` returns null instead
of falling through to the generic tier (which would have produced a non-null
result). -/
theorem C2_no_fallthrough_cex :
    extractJobTitle pageC2 = none ∧
    pageC2.query linkedinTitleSel = none ∧
    pageC2.query "h1" = some "Senior Software Engineer" ∧
    "h1" ∈ genericTitleSelectors ∧
    isValidJobTitle (some "Senior Software Engineer") = true ∧
    genericTitleLoop pageC2 genericTitleSelectors = some "Senior Software Engineer" := by
  refine ⟨by decide, by decide, by decide, by decide, by decide, by decide⟩

/-- Claim C2 (amended): for every field type, when the hostname matches a
site-specific rule for that field (linkedin.com checked first, then
indeed.com, then — for title and description only — glassdoor.com), the
extractor returns that rule's result directly: the trimmed (title, company,
location) or normalized (description) text when the rule's selector resolves
to an element, and null when it resolves to nothing.  It never falls through
to the generic selector list; the generic tier is consulted only for field
types with no matching site-specific rule — in particular company and
location on a glassdoor.com hostname, which have no glassdoor rule. -/
theorem C2_site_rule_terminal (p : Page) :
    (strContains p.hostname "linkedin.com" = true →
      extractJobTitle p = Option.map trimStr (p.query linkedinTitleSel) ∧
      extractCompany p = Option.map trimStr (p.query linkedinCompanySel) ∧
      extractLocation p = Option.map trimStr (p.query linkedinLocationSel) ∧
      extractJobDescription p = Option.map cleanText (p.query linkedinDescSel)) ∧
    (strContains p.hostname "linkedin.com" = false →
     strContains p.hostname "indeed.com" = true →
      extractJobTitle p = Option.map trimStr (p.query indeedTitleSel) ∧
      extractCompany p = Option.map trimStr (p.query indeedCompanySel) ∧
      extractLocation p = Option.map trimStr (p.query indeedLocationSel) ∧
      extractJobDescription p = Option.map cleanText (p.query indeedDescSel)) ∧
    (strContains p.hostname "linkedin.com" = false →
     strContains p.hostname "indeed.com" = false →
     strContains p.hostname "glassdoor.com" = true →
      extractJobTitle p = Option.map trimStr (p.query glassdoorTitleSel) ∧
      extractJobDescription p = Option.map cleanText (p.query glassdoorDescSel) ∧
      extractCompany p = genericNonemptyLoop p genericCompanySelectors ∧
      extractLocation p = genericNonemptyLoop p genericLocationSelectors) := by
  refine ⟨fun h1 => ?_, fun h1 h2 => ?_, fun h1 h2 h3 => ?_⟩
  · exact ⟨by simp [extractJobTitle, h1], by simp [extractCompany, h1],
      by simp [extractLocation, h1], by simp [extractJobDescription, h1]⟩
  · exact ⟨by simp [extractJobTitle, h1, h2], by simp [extractCompany, h1, h2],
      by simp [extractLocation, h1, h2], by simp [extractJobDescription, h1, h2]⟩
  · exact ⟨by simp [extractJobTitle, h1, h2, h3],
      by simp [extractJobDescription, h1, h2, h3],
      by simp [extractCompany, h1, h2], by simp [extractLocation, h1, h2]⟩

/-- Witness for the amended C2, exercising each of the three site rules at a
concrete page: `pageC2` (linkedin.com), `pageIn` (indeed.com) and `pageGd`
(glassdoor.com). -/
theorem C2_site_rule_terminal_witness :
    (extractJobTitle pageC2 = Option.map trimStr (pageC2.query linkedinTitleSel) ∧
     extractCompany pageC2 = Option.map trimStr (pageC2.query linkedinCompanySel) ∧
     extractLocation pageC2 = Option.map trimStr (pageC2.query linkedinLocationSel) ∧
     extractJobDescription pageC2 = Option.map cleanText (pageC2.query linkedinDescSel)) ∧
    (extractJobTitle pageIn = Option.map trimStr (pageIn.query indeedTitleSel) ∧
     extractCompany pageIn = Option.map trimStr (pageIn.query indeedCompanySel) ∧
     extractLocation pageIn = Option.map trimStr (pageIn.query indeedLocationSel) ∧
     extractJobDescription pageIn = Option.map cleanText (pageIn.query indeedDescSel)) ∧
    (extractJobTitle pageGd = Option.map trimStr (pageGd.query glassdoorTitleSel) ∧
     extractJobDescription pageGd = Option.map cleanText (pageGd.query glassdoorDescSel) ∧
     extractCompany pageGd = genericNonemptyLoop pageGd genericCompanySelectors ∧
     extractLocation pageGd = genericNonemptyLoop pageGd genericLocationSelectors) :=
  ⟨(C2_site_rule_terminal pageC2).1 (by decide),
   (C2_site_rule_terminal pageIn).2.1 (by decide) (by decide),
   (C2_site_rule_terminal pageGd).2.2 (by decide) (by decide) (by decide)⟩

/-- Claim C3: the page classifier returns true iff the hostname contains
(case-sensitive, no lower-casing) one of the nine job-board domains, or —
only when no allowlist domain matches — some job keyword occurs in the
lower-cased URL, document title, or body text; in particular any page whose
hostname contains an allowlist domain classifies as a job page regardless of
keyword content. -/
theorem C3_classifier (p : Page) :
    (detectJobPage p = true ↔
      ((jobBoards.any fun board => strContains p.hostname board) = true ∨
       ((jobBoards.any fun board => strContains p.hostname board) = false ∧
        detectJobKeywords p = true))) ∧
    ((jobBoards.any fun board => strContains p.hostname board) = true →
      detectJobPage p = true) := by
  unfold detectJobPage
  constructor
  · by_cases h : (jobBoards.any fun board => strContains p.hostname board) = true
    · simp [h]
    · have h' : (jobBoards.any fun board => strContains p.hostname board) = false := by
        simpa using h
      simp [h']
  · intro h
    simp [h]

/-- Witness for C3 at `pageC3`: allowlisted hostname, no keyword anywhere. -/
theorem C3_classifier_witness : detectJobPage pageC3 = true :=
  (C3_classifier pageC3).2 (by decide)

/-- Claim C4 counterexample: on `pageC4` the description is produced by the
generic tier (the hostname matches no site-specific rule) and the returned
normalized description "a b" is non-null yet only 3 characters long — the
100-character floor is checked on the raw trimmed candidate text, not on the
returned normalized text. -/
theorem C4_generic_floor_cex :
    extractJobDescription pageC4 = some "a b" ∧
    ("a b" : String).length < 100 ∧
    strContains pageC4.hostname "linkedin.com" = false ∧
    strContains pageC4.hostname "indeed.com" = false ∧
    strContains pageC4.hostname "glassdoor.com" = false ∧
    pageC4.query ".job-description" = some rawDescC4 ∧
    100 < (trimStr rawDescC4).length := by
  refine ⟨by decide, by decide, by decide, by decide, by decide, by decide, by decide⟩

/-- Claim C4 (amended): a generic-tier description candidate is accepted only
if its raw trimmed text is longer than 100 characters, and the value returned
for it is the normalized (`cleanText`) text of that candidate — which may
itself be shorter than 100 characters, since whitespace collapsing can shrink
the text.  Site-specific-tier matches are exempt from the floor. -/
theorem C4_generic_floor_amended (p : Page) (d : String)
    (h1 : strContains p.hostname "linkedin.com" = false)
    (h2 : strContains p.hostname "indeed.com" = false)
    (h3 : strContains p.hostname "glassdoor.com" = false)
    (h4 : extractJobDescription p = some d) :
    ∃ sel ∈ genericDescSelectors, ∃ raw,
      p.query sel = some raw ∧ 100 < (trimStr raw).length ∧ d = cleanText raw := by
  rw [extractJobDescription, h1, h2, h3] at h4
  simp only [Bool.false_eq_true, if_false] at h4
  exact genericDescLoop_sound p genericDescSelectors d h4

/-- Witness for the amended C4 at `pageC4`. -/
theorem C4_generic_floor_amended_witness :
    ∃ sel ∈ genericDescSelectors, ∃ raw,
      pageC4.query sel = some raw ∧ 100 < (trimStr raw).length ∧ "a b" = cleanText raw :=
  C4_generic_floor_amended pageC4 "a b" (by decide) (by decide) (by decide) (by decide)

/-- Claim C5: the title plausibility check rejects exactly the absent titles,
the titles shorter than 3 characters, and the titles whose lower-cased text
contains one of the twelve block-list words; every other title of length ≥ 3
is accepted. -/
theorem C5_title_plausibility :
    isValidJobTitle none = false ∧
    ∀ t : String, (isValidJobTitle (some t) = true ↔
      (3 ≤ t.length ∧ ∀ w ∈ invalidTitles, strContains (jsToLower t) w = false)) := by
  refine ⟨rfl, fun t => ?_⟩
  show (if t = "" then false
        else if t.length < 3 then false
        else !(invalidTitles.any fun invalid => strContains (jsToLower t) invalid)) = true ↔ _
  by_cases h0 : t = ""
  · rw [if_pos h0]
    subst h0
    simp
  · rw [if_neg h0]
    by_cases h1 : t.length < 3
    · rw [if_pos h1]
      simp only [Bool.false_eq_true, false_iff, not_and]
      intro hcon
      omega
    · rw [if_neg h1]
      have h1' : 3 ≤ t.length := by omega
      rw [Bool.not_eq_true']
      rw [List.any_eq_false]
      constructor
      · intro h
        exact ⟨h1', fun w hw => by simpa using h w hw⟩
      · intro h w hw
        simpa using h.2 w hw

/-- Witness for C5: a concrete title of length at least 3 containing no
block-list word is accepted. -/
theorem C5_title_plausibility_witness : isValidJobTitle (some "Senior Developer") = true :=
  (C5_title_plausibility.2 "Senior Developer").mpr ⟨by decide, by decide⟩

/-- Claim C6: on the normalized description containing both
"Requirements: 5 years experience" and "Qualifications: BS in CS", the
requirements parser returns exactly two entries, each with its leading
heading phrase stripped, in source order; and in general the matches of the
four patterns are concatenated in pattern order without deduplication. -/
theorem C6_requirements :
    extractRequirements (some reqDesc) =
      ["5 years experience Qualifications: BS in CS", "BS in CS"] ∧
    ∀ s : String, extractRequirements (some s) =
      if s = "" then []
      else patternScan reqHeads1 s ++ patternScan reqHeads2 s ++
           patternScan reqHeads3 s ++ patternScan reqHeads4 s :=
  ⟨by decide, fun _ => rfl⟩

/-- Claim C7: on the description "Experience with Python and AWS required" the
skills matcher returns exactly ["Python", "AWS"] in vocabulary order; in
general the result lists, in vocabulary order and without duplicates, exactly
the vocabulary terms occurring case-insensitively as substrings of the
description. -/
theorem C7_skills :
    extractSkills (some skillsDesc) = ["Python", "AWS"] ∧
    (∀ s : String, extractSkills (some s) =
      commonSkills.filter fun skill => strContains (jsToLower s) (jsToLower skill)) ∧
    ∀ s : String, (extractSkills (some s)).Nodup := by
  refine ⟨by decide, fun s => ?_, fun s => ?_⟩
  · by_cases h : s = ""
    · subst h; decide
    · simp [extractSkills, h]
  · by_cases h : s = ""
    · subst h; simp [extractSkills]
    · simp only [extractSkills]
      rw [if_neg h]
      exact commonSkills_nodup.filter _

/-- Claim C8: text normalization (`cleanText`) is idempotent. -/
theorem C8_cleanText_idem (s : String) : cleanText (cleanText s) = cleanText s := by
  show String.mk (trimL (pass2 (collapseWS (cleanText s).data))) = cleanText s
  rw [cleanText_idem_aux s]

/-- Claim C9 counterexample: two observer-callback invocations with qualifying
mutations 100 ms apart — well within one 1000 ms window — schedule two
independent rescan timers (firing at 1000 and 1100), not a single coalesced
one: no timer is ever cancelled. -/
theorem C9_debounce_cex :
    scheduledRescans burst = [1000, 1100] ∧
    (scheduledRescans burst).length = 2 ∧
    (∀ b ∈ burst, b.2.any mutationQualifies = true) ∧
    100 < 1000 := by
  refine ⟨by decide, by decide, by decide, by decide⟩

/-- Claim C9 (amended): mutations delivered within a single observer-callback
batch coalesce into at most one scheduled rescan (one `setTimeout` per
qualifying callback), but timers from distinct callback invocations are never
cancelled: every callback whose batch contains a qualifying mutation schedules
its own rescan 1000 ms later, so a burst spanning several callbacks spawns one
rescan per qualifying callback even within one debounce window. -/
theorem C9_debounce_amended :
    (∀ (t : Nat) (batch : List MutationRecord),
      callbackTimers t batch = if batch.any mutationQualifies then [t + 1000] else []) ∧
    (∀ bs : List (Nat × List MutationRecord),
      (scheduledRescans bs).length =
        (bs.filter fun b => b.2.any mutationQualifies).length) ∧
    (∀ (t : Nat) (batch : List MutationRecord), (callbackTimers t batch).length ≤ 1) := by
  refine ⟨fun t batch => rfl, fun bs => ?_, fun t batch => ?_⟩
  · induction bs with
    | nil => rfl
    | cons b rest ih =>
      by_cases h : b.2.any mutationQualifies = true
      · simp [scheduledRescans, callbackTimers, h, List.filter_cons, ih]
      · have h' : b.2.any mutationQualifies = false := by simpa using h
        simp [scheduledRescans, callbackTimers, h', List.filter_cons, ih]
  · by_cases h : batch.any mutationQualifies = true
    · simp [callbackTimers, h]
    · have h' : batch.any mutationQualifies = false := by simpa using h
      simp [callbackTimers, h']

/-- Claim C10: for every falsy extracted description — null or the empty
string — both the requirements parser and the skills matcher return the empty
list, the empty-string case behaving identically to the null case. -/
theorem C10_falsy_description :
    extractRequirements none = [] ∧ extractRequirements (some "") = [] ∧
    extractSkills none = [] ∧ extractSkills (some "") = [] := by
  refine ⟨rfl, by decide, rfl, by decide⟩

end ResumeAI
